import Mathlib

/-!
Shallow embedding of `src/attestation-service/src/verifier/tdx/claims.rs`:
the TDX quote/CCEL claims generation module. Byte buffers are modelled as
`List Nat` (each element a `u8`, i.e. `< 256`), Rust strings as `List Char`,
and `serde_json` objects as ordered association lists with insert-replaces-value
semantics (the `preserve_order` map used by `serde_json::Map`).
Rust `Result` together with the possibility of a panic (out-of-bounds slice
indexing) is modelled by the three-outcome type `RResult`.
-/

namespace TdxClaims

/-- Error kinds of the module, as named by the specification.
`TruncatedRecord` corresponds to the `bail!("give data slice is too short")`
path of `TdShimPlatformConfigInfo::try_from`; `InvalidEncoding` corresponds to
the `String::from_utf8` failure path of `parse_kernel_parameters`. -/
inductive ClaimError where
  | TruncatedRecord
  | InvalidEncoding
deriving DecidableEq, Repr

/-- Outcome of running a fallible Rust computation: `ok`, a returned `Err`,
or a panic (e.g. slice indexing out of bounds). -/
inductive RResult (α : Type) where
  | ok (a : α)
  | err (e : ClaimError)
  | panic
deriving Repr

/-- A JSON value as produced by this module: null, a string, or an ordered
string-keyed object (`serde_json::Value` restricted to the constructors the
module uses). -/
inductive JValue where
  | null
  | str (s : List Char)
  | obj (m : List (List Char × JValue))

/-- An ordered JSON object: association list in insertion order. -/
abbrev JMap := List (List Char × JValue)

/-- `serde_json::Map::insert`: if the key is present, replace its value in
place (keeping its position); otherwise append the new entry at the end. -/
def mapInsert : JMap → List Char → JValue → JMap
  | [], k, v => [(k, v)]
  | (k', v') :: rest, k, v =>
    if k' = k then (k', v) :: rest else (k', v') :: mapInsert rest k v

/-- `serde_json::Map::get`: value of the first (hence unique) entry with the
given key. -/
def mapLookup (k : List Char) : JMap → Option JValue
  | [] => none
  | (k', v) :: rest => if k' = k then some v else mapLookup k rest

/-- Lowercase hexadecimal digit for a nibble (`hex` crate alphabet). -/
def hexDigitChar (n : Nat) : Char :=
  if n < 10 then Char.ofNat (48 + n) else Char.ofNat (87 + n)

/-- `hex::encode`: two lowercase hex characters per byte, high nibble first,
no separators. -/
def hexEncode (bytes : List Nat) : List Char :=
  bytes.flatMap fun b => [hexDigitChar (b / 16 % 16), hexDigitChar (b % 16)]

/-- Modelled from the spec: the TDX quote header (the structured quote type of
`verifier/tdx/quote.rs` is not part of the sources; §3 of the spec gives its
fixed-width byte fields). Fields are byte arrays. -/
structure QuoteHeader where
  version : List Nat
  att_key_type : List Nat
  tee_type : List Nat
  reserved : List Nat
  vendor_id : List Nat
  user_data : List Nat

/-- Modelled from the spec: the TDX quote report body (`verifier/tdx/quote.rs`
is not part of the sources; §3 of the spec gives its fixed-width byte
fields). -/
structure QuoteReportBody where
  tcb_svn : List Nat
  mr_seam : List Nat
  mrsigner_seam : List Nat
  seam_attributes : List Nat
  td_attributes : List Nat
  xfam : List Nat
  mr_td : List Nat
  mr_config_id : List Nat
  mr_owner : List Nat
  mr_owner_config : List Nat
  report_data : List Nat

/-- Modelled from the spec: a parsed TDX quote, header plus report body. -/
structure Quote where
  header : QuoteHeader
  report_body : QuoteReportBody

/-- The measured entities of the event log that `claims.rs` queries. -/
inductive MeasuredEntity where
  | TdShimKernel
  | TdvfKernel
  | TdShimKernelParams
deriving DecidableEq

/-- Modelled from the spec: the CC event log (`verifier/tdx/eventlog.rs` is not
part of the sources; §3/§6 of the spec describe it as exposing two read-only
optional queries: digest-by-entity and raw-event-data-by-entity). -/
structure CcEventLog where
  query_digest : MeasuredEntity → Option (List Char)
  query_event_data : MeasuredEntity → Option (List Nat)

/-- The decoded kernel-commandline event: 16-byte descriptor, little-endian
`u32` length, and the `data` payload slice. -/
structure TdShimPlatformConfigInfo where
  descriptor : List Nat
  info_length : Nat
  data : List Nat

/-- Rust slice `buf[a..b]` (only evaluated under the bound checks the code
performs). -/
def slice (buf : List Nat) (a b : Nat) : List Nat :=
  (buf.drop a).take (b - a)

/-- `read_u32::<LittleEndian>` over a 4-byte slice. -/
def leU32 : List Nat → Nat
  | b0 :: b1 :: b2 :: b3 :: _ => b0 + 256 * b1 + 65536 * b2 + 16777216 * b3
  | _ => 0

/-- `TdShimPlatformConfigInfo::try_from(&[u8])`: fails with the
"give data slice is too short" error when fewer than 20 bytes are given;
otherwise reads the 16-byte descriptor, the little-endian `u32` length at
offset 16, and takes the payload slice `data[20 .. 20 + info_length]`.
The Rust code performs that final slice without a bound check, so when
`20 + info_length` exceeds the buffer length the slice indexing panics:
modelled by the `RResult.panic` outcome. -/
def tryFrom (data : List Nat) : RResult TdShimPlatformConfigInfo :=
  if data.length < 16 + 4 then
    .err .TruncatedRecord
  else
    let descriptor := slice data 0 16
    let info_length := leU32 (slice data 16 20)
    if 16 + 4 + info_length ≤ data.length then
      .ok ⟨descriptor, info_length, slice data (16 + 4) (16 + 4 + info_length)⟩
    else
      .panic

/-- Continuation byte test for UTF-8 (`0x80 ≤ b < 0xC0`). -/
def isCont (b : Nat) : Bool := 0x80 ≤ b && b < 0xC0

/-- UTF-8 validation and decoding as performed by Rust
`String::from_utf8` (RFC 3629: no overlong forms, no surrogates, at most
U+10FFFF); returns `none` exactly on invalid byte sequences. -/
def utf8Decode : List Nat → Option (List Char)
  | [] => some []
  | b :: rest =>
    if b < 0x80 then
      (utf8Decode rest).map (Char.ofNat b :: ·)
    else if b < 0xC2 then none
    else if b < 0xE0 then
      match rest with
      | b2 :: rest2 =>
        if isCont b2 then
          (utf8Decode rest2).map (Char.ofNat ((b - 0xC0) * 0x40 + (b2 - 0x80)) :: ·)
        else none
      | [] => none
    else if b < 0xF0 then
      match rest with
      | b2 :: b3 :: rest3 =>
        if isCont b2 && isCont b3 && !(b == 0xE0 && b2 < 0xA0)
            && !(b == 0xED && 0xA0 ≤ b2) then
          (utf8Decode rest3).map
            (Char.ofNat ((b - 0xE0) * 0x1000 + (b2 - 0x80) * 0x40 + (b3 - 0x80)) :: ·)
        else none
      | _ => none
    else if b < 0xF5 then
      match rest with
      | b2 :: b3 :: b4 :: rest4 =>
        if isCont b2 && isCont b3 && isCont b4 && !(b == 0xF0 && b2 < 0x90)
            && !(b == 0xF4 && 0x90 ≤ b2) then
          (utf8Decode rest4).map
            (Char.ofNat ((b - 0xF0) * 0x40000 + (b2 - 0x80) * 0x1000
              + (b3 - 0x80) * 0x40 + (b4 - 0x80)) :: ·)
        else none
      | _ => none
    else none

/-- The separator set of `parse_kernel_parameters`:
`split(&[' ', '\n', '\r', '\0'])`. -/
def isSep (c : Char) : Bool := c == ' ' || c == '\n' || c == '\r' || c == '\x00'

/-- Rust `str::split` on a character predicate: every separator occurrence
cuts, empty pieces are kept (the empty string yields one empty piece). -/
def splitOnP (p : Char → Bool) : List Char → List (List Char)
  | [] => [[]]
  | c :: cs =>
    let rest := splitOnP p cs
    if p c then [] :: rest
    else (c :: rest.headI) :: rest.tail

/-- The `filter_map` body of `parse_kernel_parameters`: drop empty tokens,
then split the token on every `=`; 1 part gives a null-valued key, 2 parts a
key/value pair, anything else is discarded. -/
def tokenAction (t : List Char) : Option (List Char × JValue) :=
  if t.isEmpty then none
  else
    match splitOnP (· == '=') t with
    | [k] => some (k, JValue.null)
    | [k, v] => some (k, JValue.str v)
    | _ => none

/-- The token pairs of a kernel-parameters string, in input order. -/
def tokensOf (s : List Char) : List (List Char × JValue) :=
  (splitOnP isSep s).filterMap tokenAction

/-- `collect::<Map<String, Value>>()`: insert the pairs left to right, a later
pair with an existing key replaces that key's value. -/
def collectMap (l : List (List Char × JValue)) : JMap :=
  l.foldl (fun m kv => mapInsert m kv.1 kv.2) []

/-- `parse_kernel_parameters` after UTF-8 decoding: split on the four
separators, apply `tokenAction` to each token, collect into a map. -/
def parseKernelParametersStr (s : List Char) : JMap :=
  collectMap (tokensOf s)

/-- `parse_kernel_parameters(&[u8])`: decode the payload as UTF-8 (failing
with the encoding error otherwise), then tokenize. -/
def parse_kernel_parameters (kernel_parameters : List Nat) : RResult JMap :=
  match utf8Decode kernel_parameters with
  | some s => .ok (parseKernelParametersStr s)
  | none => .err .InvalidEncoding

/-- The kernel-parameters decode chain of `parse_ccel`:
`TdShimPlatformConfigInfo::try_from` followed by `parse_kernel_parameters`
on the payload, each failure propagating. -/
def decodeKernelParamsEvent (d : List Nat) : RResult JMap :=
  match tryFrom d with
  | .ok info => parse_kernel_parameters info.data
  | .err e => .err e
  | .panic => .panic

/-- `parse_ccel`: starting from the fresh map the caller passes in, insert the
td-shim kernel digest (if present), then the TDVF kernel digest (if present,
under the same "kernel" key), then decode the kernel-parameters event data
(if present) and insert the resulting object; decode failures propagate. -/
def parse_ccel (ccel : CcEventLog) : RResult JMap :=
  let m0 : JMap := []
  let m1 := match ccel.query_digest .TdShimKernel with
    | some kernel_digest => mapInsert m0 "kernel".toList (.str kernel_digest)
    | none => m0
  let m2 := match ccel.query_digest .TdvfKernel with
    | some kernel_digest => mapInsert m1 "kernel".toList (.str kernel_digest)
    | none => m1
  match ccel.query_event_data .TdShimKernelParams with
  | some config_info =>
    match decodeKernelParamsEvent config_info with
    | .ok parameters => .ok (mapInsert m2 "kernel_parameters".toList (.obj parameters))
    | .err e => .err e
    | .panic => .panic
  | none => .ok m2

/-- The quote-header claims map built by the `parse_claim!` invocations of
`generate_parsed_claim`, in source order. -/
def quoteHeaderClaims (h : QuoteHeader) : JMap :=
  let m := mapInsert [] "version".toList (.str (hexEncode h.version))
  let m := mapInsert m "att_key_type".toList (.str (hexEncode h.att_key_type))
  let m := mapInsert m "tee_type".toList (.str (hexEncode h.tee_type))
  let m := mapInsert m "reserved".toList (.str (hexEncode h.reserved))
  let m := mapInsert m "vendor_id".toList (.str (hexEncode h.vendor_id))
  let m := mapInsert m "user_data".toList (.str (hexEncode h.user_data))
  m

/-- The quote-body claims map built by the `parse_claim!` invocations of
`generate_parsed_claim`, in source order. -/
def quoteBodyClaims (b : QuoteReportBody) : JMap :=
  let m := mapInsert [] "tcb_svn".toList (.str (hexEncode b.tcb_svn))
  let m := mapInsert m "mr_seam".toList (.str (hexEncode b.mr_seam))
  let m := mapInsert m "mrsigner_seam".toList (.str (hexEncode b.mrsigner_seam))
  let m := mapInsert m "seam_attributes".toList (.str (hexEncode b.seam_attributes))
  let m := mapInsert m "td_attributes".toList (.str (hexEncode b.td_attributes))
  let m := mapInsert m "xfam".toList (.str (hexEncode b.xfam))
  let m := mapInsert m "mr_td".toList (.str (hexEncode b.mr_td))
  let m := mapInsert m "mr_config_id".toList (.str (hexEncode b.mr_config_id))
  let m := mapInsert m "mr_owner".toList (.str (hexEncode b.mr_owner))
  let m := mapInsert m "mr_owner_config".toList (.str (hexEncode b.mr_owner_config))
  let m := mapInsert m "report_data".toList (.str (hexEncode b.report_data))
  m

/-- ASCII byte-string literal, as in the Rust tests' b"..." notation. -/
def asciiBytes (s : String) : List Nat :=
  s.toList.map Char.toNat

/-- The keys of a JSON object, in insertion order. -/
def mapKeys (m : JMap) : List (List Char) :=
  m.map Prod.fst

/-- `generate_parsed_claim`: build the header and body maps, assemble the
quote map; if an event log is given run `parse_ccel` (propagating failure),
otherwise leave the ccel map empty; return the two-key claims object. -/
def generate_parsed_claim (quote : Quote) (cc_eventlog : Option CcEventLog) :
    RResult JValue :=
  let quote_header := quoteHeaderClaims quote.header
  let quote_body := quoteBodyClaims quote.report_body
  let quote_map := mapInsert (mapInsert [] "header".toList (.obj quote_header))
    "body".toList (.obj quote_body)
  match cc_eventlog with
  | some ccel =>
    match parse_ccel ccel with
    | .ok ccel_map =>
      .ok (.obj (mapInsert (mapInsert [] "quote".toList (.obj quote_map))
        "ccel".toList (.obj ccel_map)))
    | .err e => .err e
    | .panic => .panic
  | none =>
    .ok (.obj (mapInsert (mapInsert [] "quote".toList (.obj quote_map))
      "ccel".toList (.obj ([] : JMap))))

/-! ### Helper lemmas about splitting and maps -/

theorem splitOnP_ne_nil (p : Char → Bool) (l : List Char) : splitOnP p l ≠ [] := by
  cases l with
  | nil => simp [splitOnP]
  | cons c cs =>
    by_cases h : p c <;> simp [splitOnP, h]

theorem splitOnP_append_sep (p : Char → Bool) (c : Char) (hc : p c = true)
    (u v : List Char) :
    splitOnP p (u ++ c :: v) = splitOnP p u ++ splitOnP p v := by
  induction u with
  | nil => simp [splitOnP, hc]
  | cons a u ih =>
    by_cases ha : p a
    · simp [splitOnP, ha, ih]
    · obtain ⟨t, ts, hu⟩ := List.exists_cons_of_ne_nil (splitOnP_ne_nil p u)
      simp [splitOnP, ha, ih, hu]

instance : Inhabited JValue := ⟨.null⟩

theorem splitOnP_eq_single (p : Char → Bool) :
    ∀ t k : List Char, splitOnP p t = [k] → k = t := by
  intro t
  induction t with
  | nil =>
    intro k h
    simp [splitOnP] at h
    exact h
  | cons a t ih =>
    intro k h
    by_cases ha : p a
    · exfalso
      simp [splitOnP, ha] at h
      exact splitOnP_ne_nil p t h.2
    · obtain ⟨r, rs, ht⟩ := List.exists_cons_of_ne_nil (splitOnP_ne_nil p t)
      simp [splitOnP, ha, ht] at h
      obtain ⟨h1, h2⟩ := h
      have hr : r = t := ih r (by rw [ht, h2])
      rw [← h1, hr]

theorem tokenAction_nil : tokenAction [] = none := rfl

theorem tokensOf_append_sep (c : Char) (hc : isSep c = true) (u v : List Char) :
    tokensOf (u ++ c :: v) = tokensOf u ++ tokensOf v := by
  simp [tokensOf, splitOnP_append_sep isSep c hc, List.filterMap_append]

theorem tokensOf_sep_cons (c : Char) (hc : isSep c = true) (v : List Char) :
    tokensOf (c :: v) = tokensOf v := by
  have h := tokensOf_append_sep c hc [] v
  simpa [tokensOf, splitOnP, tokenAction] using h

theorem mapLookup_mapInsert (m : JMap) (k k' : List Char) (v : JValue) :
    mapLookup k (mapInsert m k' v) = if k' = k then some v else mapLookup k m := by
  induction m with
  | nil => simp [mapInsert, mapLookup]
  | cons p rest ih =>
    obtain ⟨k₁, v₁⟩ := p
    by_cases h1 : k₁ = k'
    · subst h1
      by_cases h2 : k₁ = k <;> simp [mapInsert, mapLookup, h2]
    · by_cases h2 : k₁ = k
      · subst h2
        have : ¬ k' = k₁ := fun h => h1 h.symm
        simp [mapInsert, mapLookup, h1, this]
      · simp [mapInsert, mapLookup, h1, h2, ih]

theorem mapKeys_mapInsert (m : JMap) (k : List Char) (v : JValue) :
    mapKeys (mapInsert m k v) =
      if k ∈ mapKeys m then mapKeys m else mapKeys m ++ [k] := by
  induction m with
  | nil => simp [mapInsert, mapKeys]
  | cons p rest ih =>
    obtain ⟨k₁, v₁⟩ := p
    by_cases h1 : k₁ = k
    · subst h1
      have hins : mapInsert ((k₁, v₁) :: rest) k₁ v = (k₁, v) :: rest := by
        simp [mapInsert]
      rw [hins, if_pos (by simp [mapKeys])]
      rfl
    · have hk : k ≠ k₁ := fun h => h1 h.symm
      have hins : mapInsert ((k₁, v₁) :: rest) k v = (k₁, v₁) :: mapInsert rest k v := by
        simp [mapInsert, h1]
      have hcons : ∀ l : JMap, mapKeys ((k₁, v₁) :: l) = k₁ :: mapKeys l :=
        fun l => rfl
      by_cases h2 : k ∈ mapKeys rest
      · rw [hins, if_pos (by rw [hcons]; exact List.mem_cons_of_mem k₁ h2)]
        rw [hcons, hcons, ih, if_pos h2]
      · rw [hins, if_neg (by rw [hcons]; simp [hk, h2])]
        rw [hcons, hcons, ih, if_neg h2]
        rfl

theorem nodup_mapKeys_mapInsert (m : JMap) (k : List Char) (v : JValue)
    (h : (mapKeys m).Nodup) : (mapKeys (mapInsert m k v)).Nodup := by
  rw [mapKeys_mapInsert]
  by_cases hk : k ∈ mapKeys m
  · simpa [hk] using h
  · simp [hk, List.nodup_append, h]

theorem nodup_mapKeys_foldl_ins (l : List (List Char × JValue)) :
    ∀ m : JMap, (mapKeys m).Nodup →
      (mapKeys (l.foldl (fun m kv => mapInsert m kv.1 kv.2) m)).Nodup := by
  induction l with
  | nil => intro m h; simpa using h
  | cons p t ih =>
    intro m h
    exact ih (mapInsert m p.1 p.2) (nodup_mapKeys_mapInsert m p.1 p.2 h)

theorem mapLookup_foldl_ins (k : List Char) (l : List (List Char × JValue)) :
    ∀ m : JMap,
      mapLookup k (l.foldl (fun m kv => mapInsert m kv.1 kv.2) m) =
        l.foldl (fun acc kv => if kv.1 = k then some kv.2 else acc) (mapLookup k m) := by
  induction l with
  | nil => intro m; rfl
  | cons p t ih =>
    intro m
    simp only [List.foldl_cons, ih, mapLookup_mapInsert]

theorem foldl_lastVal_of_not_mem (k : List Char) (l : List (List Char × JValue))
    (h : ∀ p ∈ l, p.1 ≠ k) (acc : Option JValue) :
    l.foldl (fun acc kv => if kv.1 = k then some kv.2 else acc) acc = acc := by
  induction l generalizing acc with
  | nil => rfl
  | cons p t ih =>
    have hp : p.1 ≠ k := h p (by simp)
    simp only [List.foldl_cons, if_neg hp]
    exact ih (fun q hq => h q (by simp [hq])) acc

theorem collectMap_lookup_last (l₁ l₂ : List (List Char × JValue))
    (k : List Char) (v : JValue) (h : ∀ p ∈ l₂, p.1 ≠ k) :
    mapLookup k (collectMap (l₁ ++ (k, v) :: l₂)) = some v := by
  unfold collectMap
  rw [mapLookup_foldl_ins, List.foldl_append, List.foldl_cons]
  simp only [if_pos rfl]
  exact foldl_lastVal_of_not_mem k l₂ h (some v)

/-! ### Claim theorems -/

/-- C1 (failing input evaluated): a buffer shorter than 20 bytes does fail
with the truncated-record error, but a 20-byte buffer whose little-endian
length field is 1 (so that 20 + length exceeds the buffer length) makes the
payload slice index out of bounds, i.e. the code panics instead of returning
the `TruncatedRecord` error that the specification requires for this case. -/
theorem tryFrom_oversized_length_panics :
    tryFrom [1, 2, 3] = RResult.err ClaimError.TruncatedRecord ∧
      tryFrom (List.replicate 16 0 ++ [1, 0, 0, 0]) = RResult.panic :=
  ⟨rfl, rfl⟩

/-- C3: with no event log, `generate_parsed_claim` always succeeds and
returns exactly the two-key document: a populated "quote" object (header and
body maps) and an empty "ccel" object. -/
theorem generate_parsed_claim_none_eq (q : Quote) :
    generate_parsed_claim q none =
      RResult.ok (JValue.obj
        [("quote".toList, JValue.obj
            [("header".toList, JValue.obj (quoteHeaderClaims q.header)),
             ("body".toList, JValue.obj (quoteBodyClaims q.report_body))]),
         ("ccel".toList, JValue.obj [])]) :=
  rfl

/-- C4: whenever `TdShimPlatformConfigInfo::try_from` succeeds, the
descriptor is bytes 0..16, the length is the little-endian u32 at bytes
16..20, and the payload is exactly `info_length` bytes starting at offset 20;
moreover the descriptor contents are not validated: replacing the first 16
bytes by any other 16 bytes decodes successfully with the same length and
payload. -/
theorem tryFrom_ok_fields (data d₂ : List Nat) (c : TdShimPlatformConfigInfo)
    (h : tryFrom data = RResult.ok c) (h₂ : d₂.length = 16) :
    c.descriptor = slice data 0 16 ∧
    c.info_length = leU32 (slice data 16 20) ∧
    c.data = slice data 20 (20 + c.info_length) ∧
    c.data.length = c.info_length ∧
    tryFrom (d₂ ++ data.drop 16) = RResult.ok ⟨d₂, c.info_length, c.data⟩ := by
  unfold tryFrom at h
  by_cases hlen : data.length < 16 + 4
  · rw [if_pos hlen] at h
    exact absurd h (by simp)
  · rw [if_neg hlen] at h
    by_cases hfit : 16 + 4 + leU32 (slice data 16 20) ≤ data.length
    · rw [if_pos hfit] at h
      have hc : c = ⟨slice data 0 16, leU32 (slice data 16 20),
          slice data (16 + 4) (16 + 4 + leU32 (slice data 16 20))⟩ := by
        cases h
        rfl
      subst hc
      have hrest : (d₂ ++ data.drop 16).drop 16 = data.drop 16 := by
        have hd := List.drop_left d₂ (data.drop 16)
        rwa [h₂] at hd
      have hslice16 : slice (d₂ ++ data.drop 16) 16 20 = slice data 16 20 := by
        simp only [slice]
        rw [show (20 : Nat) - 16 = 4 from rfl, hrest]
      refine ⟨rfl, rfl, rfl, ?_, ?_⟩
      · simp only [slice, List.length_take, List.length_drop] at hfit ⊢
        omega
      · unfold tryFrom
        have hlen2 : (d₂ ++ data.drop 16).length = data.length := by
          simp [h₂]
          omega
        rw [if_neg (by omega), hslice16, if_pos (by omega)]
        have hdesc : slice (d₂ ++ data.drop 16) 0 16 = d₂ := by
          have ht := List.take_left d₂ (data.drop 16)
          rw [h₂] at ht
          simpa [slice] using ht
        have hdata : slice (d₂ ++ data.drop 16) (16 + 4)
            (16 + 4 + leU32 (slice data 16 20)) =
            slice data (16 + 4) (16 + 4 + leU32 (slice data 16 20)) := by
          simp only [slice]
          rw [show (16 + 4 : Nat) = 16 + 4 from rfl]
          rw [← List.drop_drop, ← List.drop_drop, hrest]
        rw [hdesc, hdata]
    · rw [if_neg hfit] at h
      exact absurd h (by simp)

/-- C6: a payload that is not valid UTF-8 makes `parse_kernel_parameters`
fail with the invalid-encoding error; no map is produced. -/
theorem parse_kernel_parameters_invalid_utf8 (bytes : List Nat)
    (h : utf8Decode bytes = none) :
    parse_kernel_parameters bytes = RResult.err ClaimError.InvalidEncoding := by
  simp [parse_kernel_parameters, h]

/-- Witness for C6 at the concrete input b"\xff\xff". -/
theorem parse_kernel_parameters_invalid_utf8_witness :
    utf8Decode [255, 255] = none ∧
      parse_kernel_parameters [255, 255] = RResult.err ClaimError.InvalidEncoding :=
  ⟨rfl, parse_kernel_parameters_invalid_utf8 [255, 255] rfl⟩

/-- Witness for C4 at a concrete 22-byte buffer with length field 2. -/
theorem tryFrom_ok_fields_witness :
    (⟨List.replicate 16 0, 2, [7, 8]⟩ : TdShimPlatformConfigInfo).descriptor =
        slice (List.replicate 16 0 ++ [2, 0, 0, 0, 7, 8]) 0 16 ∧
    (⟨List.replicate 16 0, 2, [7, 8]⟩ : TdShimPlatformConfigInfo).info_length =
        leU32 (slice (List.replicate 16 0 ++ [2, 0, 0, 0, 7, 8]) 16 20) ∧
    (⟨List.replicate 16 0, 2, [7, 8]⟩ : TdShimPlatformConfigInfo).data =
        slice (List.replicate 16 0 ++ [2, 0, 0, 0, 7, 8]) 20
          (20 + (⟨List.replicate 16 0, 2, [7, 8]⟩ : TdShimPlatformConfigInfo).info_length) ∧
    (⟨List.replicate 16 0, 2, [7, 8]⟩ : TdShimPlatformConfigInfo).data.length =
        (⟨List.replicate 16 0, 2, [7, 8]⟩ : TdShimPlatformConfigInfo).info_length ∧
    tryFrom (List.replicate 16 1 ++ (List.replicate 16 0 ++ [2, 0, 0, 0, 7, 8]).drop 16) =
        RResult.ok ⟨List.replicate 16 1, 2, [7, 8]⟩ :=
  tryFrom_ok_fields (List.replicate 16 0 ++ [2, 0, 0, 0, 7, 8])
    (List.replicate 16 1) ⟨List.replicate 16 0, 2, [7, 8]⟩ rfl rfl

/-- C5: each non-empty token is handled by its number of '='-separated parts:
one part gives the token itself as a null-valued key, two parts give a
key/value pair with the second part kept literally as the value, three or
more parts discard the token; in particular b"a==b" and b"a=b=c" both
tokenize to the empty map. -/
theorem tokenAction_cases :
    (∀ t k : List Char, t ≠ [] → splitOnP (· == '=') t = [k] →
        tokenAction t = some (t, JValue.null)) ∧
    (∀ t k v : List Char, t ≠ [] → splitOnP (· == '=') t = [k, v] →
        tokenAction t = some (k, JValue.str v)) ∧
    (∀ (t p₁ p₂ p₃ : List Char) (ps : List (List Char)),
        splitOnP (· == '=') t = p₁ :: p₂ :: p₃ :: ps → tokenAction t = none) ∧
    parse_kernel_parameters (asciiBytes "a==b") = RResult.ok [] ∧
    parse_kernel_parameters (asciiBytes "a=b=c") = RResult.ok [] := by
  refine ⟨?_, ?_, ?_, rfl, rfl⟩
  · intro t k ht h
    have hk : k = t := splitOnP_eq_single _ t k h
    subst hk
    simp [tokenAction, ht, h]
  · intro t k v ht h
    simp [tokenAction, ht, h]
  · intro t p₁ p₂ p₃ ps h
    by_cases ht : t = []
    · subst ht
      rfl
    · simp [tokenAction, ht, h]

/-- Witness for C5 at the concrete tokens "ab", "a=b" and "a=b=c". -/
theorem tokenAction_cases_witness :
    tokenAction "ab".toList = some ("ab".toList, JValue.null) ∧
      tokenAction "a=b".toList = some ("a".toList, JValue.str "b".toList) ∧
      tokenAction "a=b=c".toList = none :=
  ⟨tokenAction_cases.1 "ab".toList "ab".toList (by decide) rfl,
   tokenAction_cases.2.1 "a=b".toList "a".toList "b".toList (by decide) rfl,
   tokenAction_cases.2.2.1 "a=b=c".toList "a".toList "b".toList "c".toList [] rfl⟩

/-- C9: the four separator characters are interchangeable (replacing a
separator occurrence by another separator yields the same map), and an
extra separator inserted next to an existing one leaves the map unchanged;
in particular b"a=b\nc=d" and b"a=b c=d" parse identically. -/
theorem separators_interchangeable :
    (∀ (u v : List Char) (c₁ c₂ : Char), isSep c₁ = true → isSep c₂ = true →
        parseKernelParametersStr (u ++ c₁ :: v) =
          parseKernelParametersStr (u ++ c₂ :: v)) ∧
    (∀ (u v : List Char) (c d : Char), isSep c = true → isSep d = true →
        parseKernelParametersStr (u ++ c :: d :: v) =
          parseKernelParametersStr (u ++ c :: v)) ∧
    parse_kernel_parameters (asciiBytes "a=b\nc=d") =
      parse_kernel_parameters (asciiBytes "a=b c=d") := by
  refine ⟨?_, ?_, rfl⟩
  · intro u v c₁ c₂ h1 h2
    unfold parseKernelParametersStr
    rw [tokensOf_append_sep c₁ h1, tokensOf_append_sep c₂ h2]
  · intro u v c d hc hd
    unfold parseKernelParametersStr
    rw [tokensOf_append_sep c hc, tokensOf_append_sep c hc, tokensOf_sep_cons d hd]

/-- Witness for C9: newline against space at a concrete split point, and a
duplicated separator. -/
theorem separators_interchangeable_witness :
    parseKernelParametersStr ("a=b".toList ++ '\n' :: "c=d".toList) =
        parseKernelParametersStr ("a=b".toList ++ ' ' :: "c=d".toList) ∧
      parseKernelParametersStr ("a=b".toList ++ ' ' :: '\n' :: "c=d".toList) =
        parseKernelParametersStr ("a=b".toList ++ ' ' :: "c=d".toList) :=
  ⟨separators_interchangeable.1 "a=b".toList "c=d".toList '\n' ' ' rfl rfl,
   separators_interchangeable.2.1 "a=b".toList "c=d".toList ' ' '\n' rfl rfl⟩

/-- C2: if the kernel-parameters event data is present but its decoding
(platform-config-info decode, or kernel-parameter tokenization) returns an
error, `generate_parsed_claim` returns that error: no claims document, not
even the quote portion, is produced. -/
theorem generate_parsed_claim_err_of_decode_err (q : Quote) (ev : CcEventLog)
    (d : List Nat) (e : ClaimError)
    (hd : ev.query_event_data MeasuredEntity.TdShimKernelParams = some d)
    (he : decodeKernelParamsEvent d = RResult.err e) :
    generate_parsed_claim q (some ev) = RResult.err e := by
  simp only [generate_parsed_claim, parse_ccel, hd, he]

/-- All-zero-field quote used by concrete witnesses. -/
def sampleQuote : Quote :=
  ⟨⟨[], [], [], [], [], []⟩, ⟨[], [], [], [], [], [], [], [], [], [], []⟩⟩

/-- Event log whose kernel-parameters event data is an empty (too short)
buffer; used by the C2 witness. -/
def sampleEvShortParams : CcEventLog :=
  ⟨fun _ => none,
   fun ent => if ent = MeasuredEntity.TdShimKernelParams then some [] else none⟩

/-- Witness for C2: an empty kernel-parameters buffer is too short for the
config-info header, and the whole build fails with that error. -/
theorem generate_parsed_claim_err_of_decode_err_witness :
    generate_parsed_claim sampleQuote (some sampleEvShortParams) =
      RResult.err ClaimError.TruncatedRecord :=
  generate_parsed_claim_err_of_decode_err sampleQuote sampleEvShortParams []
    ClaimError.TruncatedRecord rfl rfl

/-- C7: when both kernel-image entities resolve to digests and `parse_ccel`
succeeds, the "kernel" key holds the TDVF (variant B) digest: the second
query unconditionally overwrites the first. -/
theorem parse_ccel_kernel_last_write_wins (ev : CcEventLog) (dA dB : List Char)
    (m : JMap)
    (hA : ev.query_digest MeasuredEntity.TdShimKernel = some dA)
    (hB : ev.query_digest MeasuredEntity.TdvfKernel = some dB)
    (hm : parse_ccel ev = RResult.ok m) :
    mapLookup "kernel".toList m = some (JValue.str dB) := by
  have hm2 : mapInsert (mapInsert [] "kernel".toList (JValue.str dA))
      "kernel".toList (JValue.str dB) = [("kernel".toList, JValue.str dB)] := by
    simp [mapInsert]
  rcases hevd : ev.query_event_data MeasuredEntity.TdShimKernelParams with _ | d
  · simp only [parse_ccel, hA, hB, hevd, hm2] at hm
    injection hm with hm
    subst hm
    rfl
  · simp only [parse_ccel, hA, hB, hevd, hm2] at hm
    rcases hdec : decodeKernelParamsEvent d with params | e
    · rw [hdec] at hm
      injection hm with hm
      subst hm
      rw [mapLookup_mapInsert, if_neg (by decide)]
      rfl
    · rw [hdec] at hm
      exact absurd hm (by simp)
    · rw [hdec] at hm
      exact absurd hm (by simp)

/-- Event log exposing both kernel digests and no kernel-parameters event;
used by the C7 witness. -/
def sampleEvBothKernels : CcEventLog :=
  ⟨fun ent =>
      if ent = MeasuredEntity.TdShimKernel then some "aa".toList
      else if ent = MeasuredEntity.TdvfKernel then some "bb".toList
      else none,
   fun _ => none⟩

/-- Witness for C7 at a concrete event log where variant A resolves to "aa"
and variant B to "bb": the resulting kernel digest is "bb". -/
theorem parse_ccel_kernel_last_write_wins_witness :
    mapLookup "kernel".toList [("kernel".toList, JValue.str "bb".toList)] =
      some (JValue.str "bb".toList) :=
  parse_ccel_kernel_last_write_wins sampleEvBothKernels "aa".toList "bb".toList
    [("kernel".toList, JValue.str "bb".toList)] rfl rfl rfl

/-- C10: parsing succeeds on every valid-UTF-8 payload; a key occurring in
several well-formed tokens appears exactly once in the output map (keys are
pairwise distinct) with the value of its last occurrence; in particular
b"a=b a=c" parses to a single entry a = "c". -/
theorem duplicate_keys_last_wins :
    (∀ (bytes : List Nat) (s : List Char), utf8Decode bytes = some s →
        parse_kernel_parameters bytes = RResult.ok (parseKernelParametersStr s)) ∧
    (∀ (s : List Char) (l₁ l₂ : List (List Char × JValue)) (k : List Char)
        (v : JValue),
        tokensOf s = l₁ ++ (k, v) :: l₂ → (∀ p ∈ l₂, p.1 ≠ k) →
        mapLookup k (parseKernelParametersStr s) = some v) ∧
    (∀ s : List Char, (mapKeys (parseKernelParametersStr s)).Nodup) ∧
    parse_kernel_parameters (asciiBytes "a=b a=c") =
      RResult.ok [("a".toList, JValue.str "c".toList)] := by
  refine ⟨?_, ?_, ?_, rfl⟩
  · intro bytes s h
    simp [parse_kernel_parameters, h]
  · intro s l₁ l₂ k v htok hlast
    unfold parseKernelParametersStr
    rw [htok]
    exact collectMap_lookup_last l₁ l₂ k v hlast
  · intro s
    have h := nodup_mapKeys_foldl_ins (tokensOf s) [] (by simp [mapKeys])
    simpa [parseKernelParametersStr, collectMap] using h

/-- Witness for C10 at b"a=b a=c": parsing succeeds and looking up "a" in the
result yields "c", the value of the last occurrence. -/
theorem duplicate_keys_last_wins_witness :
    parse_kernel_parameters (asciiBytes "a=b a=c") =
        RResult.ok (parseKernelParametersStr "a=b a=c".toList) ∧
      mapLookup "a".toList (parseKernelParametersStr "a=b a=c".toList) =
        some (JValue.str "c".toList) :=
  ⟨duplicate_keys_last_wins.1 (asciiBytes "a=b a=c") "a=b a=c".toList rfl,
   duplicate_keys_last_wins.2.1 "a=b a=c".toList
     [("a".toList, JValue.str "b".toList)] [] "a".toList (JValue.str "c".toList)
     rfl (by simp)⟩

/-- C8: the quote projection inserts all 6 header fields and all 11 body
fields under their exact names, each value the hex encoding of the field's
bytes; the hex encoding has exactly two characters per input byte and uses
only the lowercase hexadecimal alphabet; the projection is a total
function. -/
theorem quote_projection_fields_hex (q : Quote) (bytes : List Nat) :
    quoteHeaderClaims q.header =
      [("version".toList, JValue.str (hexEncode q.header.version)),
       ("att_key_type".toList, JValue.str (hexEncode q.header.att_key_type)),
       ("tee_type".toList, JValue.str (hexEncode q.header.tee_type)),
       ("reserved".toList, JValue.str (hexEncode q.header.reserved)),
       ("vendor_id".toList, JValue.str (hexEncode q.header.vendor_id)),
       ("user_data".toList, JValue.str (hexEncode q.header.user_data))] ∧
    quoteBodyClaims q.report_body =
      [("tcb_svn".toList, JValue.str (hexEncode q.report_body.tcb_svn)),
       ("mr_seam".toList, JValue.str (hexEncode q.report_body.mr_seam)),
       ("mrsigner_seam".toList, JValue.str (hexEncode q.report_body.mrsigner_seam)),
       ("seam_attributes".toList, JValue.str (hexEncode q.report_body.seam_attributes)),
       ("td_attributes".toList, JValue.str (hexEncode q.report_body.td_attributes)),
       ("xfam".toList, JValue.str (hexEncode q.report_body.xfam)),
       ("mr_td".toList, JValue.str (hexEncode q.report_body.mr_td)),
       ("mr_config_id".toList, JValue.str (hexEncode q.report_body.mr_config_id)),
       ("mr_owner".toList, JValue.str (hexEncode q.report_body.mr_owner)),
       ("mr_owner_config".toList, JValue.str (hexEncode q.report_body.mr_owner_config)),
       ("report_data".toList, JValue.str (hexEncode q.report_body.report_data))] ∧
    (hexEncode bytes).length = 2 * bytes.length ∧
    (∀ c ∈ hexEncode bytes, c ∈ "0123456789abcdef".toList) := by
  refine ⟨rfl, rfl, ?_, ?_⟩
  · induction bytes with
    | nil => rfl
    | cons b bs ih =>
      simp only [hexEncode, List.flatMap_cons, List.length_append, List.length_cons,
        List.length_nil] at ih ⊢
      omega
  · intro c hc
    simp only [hexEncode, List.mem_flatMap] at hc
    obtain ⟨b, _, hcb⟩ := hc
    have hdig : ∀ n, n < 16 → hexDigitChar n ∈ "0123456789abcdef".toList := by decide
    simp only [List.mem_cons, List.not_mem_nil, or_false] at hcb
    rcases hcb with hcb | hcb <;> subst hcb
    · exact hdig _ (Nat.mod_lt _ (by norm_num))
    · exact hdig _ (Nat.mod_lt _ (by norm_num))

/-- Witness for C8 at the bytes [0, 255]. -/
theorem quote_projection_fields_hex_witness :
    (hexEncode [0, 255]).length = 2 * ([0, 255] : List Nat).length ∧
      '0' ∈ "0123456789abcdef".toList :=
  ⟨(quote_projection_fields_hex sampleQuote [0, 255]).2.2.1,
   (quote_projection_fields_hex sampleQuote [0, 255]).2.2.2 '0' (by decide)⟩

end TdxClaims
